import Mathlib

/-!
Verification of the cleancopywriter HTML transformation engine: a shallow
embedding of the templatifier in `cleancopywriter/html/templatifiers/clc.py`,
the generic element factories in `cleancopywriter/html/generic_templates.py`,
the document collection in `cleancopywriter/html/documents.py`, and the
embeddings-plugin contract in `cleancopywriter/html/plugin_types.py`.
-/

namespace Cleancopywriter

/-- Inline formatting kinds, from `cleancopy.spectypes.InlineFormatting` as
consumed by `clc.py` (`formatting_factory` branches on exactly these). -/
inductive InlineFormatting
  | pre
  | underline
  | strong
  | emphasis
  | strike
  | quote
  deriving DecidableEq, Repr

/-- Typed metadata literal values (`cleancopy.ast.*DataType`). Payloads are
modelled as the literal's string value, matching the `.value` attribute read
by the templatifier; `null` carries no value. -/
inductive DatatypedValue
  | str (value : String)
  | int (value : String)
  | dec (value : String)
  | bool (value : String)
  | null
  | mention (value : String)
  | tag (value : String)
  | var (value : String)
  | ref (value : String)
  deriving DecidableEq, Repr

/-- The `.value` attribute of a datatyped value (never read on `null` by the
source, which special-cases it first). -/
def DatatypedValue.value : DatatypedValue → String
  | .str v => v
  | .int v => v
  | .dec v => v
  | .bool v => v
  | .null => ""
  | .mention v => v
  | .tag v => v
  | .var v => v
  | .ref v => v

/-- The `DATATYPE_NAMES` lookup table at the top of `clc.py`. -/
def DATATYPE_NAMES : DatatypedValue → String
  | .str _ => "str"
  | .int _ => "int"
  | .dec _ => "dec"
  | .bool _ => "bool"
  | .null => "null"
  | .mention _ => "@"
  | .tag _ => "#"
  | .var _ => "%"
  | .ref _ => "&"

/-- Escape of one character per Python `html.escape(s, quote=True)`:
ampersand, angle brackets, double quote and apostrophe. -/
def htmlEscapeChar (c : Char) : String :=
  if c = Char.ofNat 38 then "&amp;"
  else if c = Char.ofNat 60 then "&lt;"
  else if c = Char.ofNat 62 then "&gt;"
  else if c = Char.ofNat 34 then "&quot;"
  else if c = Char.ofNat 39 then "&#x27;"
  else c.toString

/-- Python `html.escape(value, quote=True)` as used throughout `clc.py`. -/
def htmlEscape (s : String) : String :=
  String.join (s.toList.map htmlEscapeChar)

/-- A value stored in one of the magic (spec-reserved) fields of a node info:
either an enum member (carrying its Python `.name`) or a datatyped value. -/
inductive MagicValue
  | enumMember (name : String)
  | data (v : DatatypedValue)
  deriving DecidableEq, Repr

/-- `cleancopy.ast.BlockNodeInfo` as consumed by `clc.py`: `magic` models the
iteration `for enum_member in BlockMetadataMagic: getattr(value, ...)` as the
(enum-ordered) list of field names paired with their optional values, and
`metadata` models the user metadata mapping `node_info.metadata.items()` in
insertion order. -/
structure BlockNodeInfo where
  magic : List (String × Option MagicValue)
  metadata : List (String × DatatypedValue)
  deriving DecidableEq, Repr

/-- `cleancopy.ast.InlineNodeInfo` as consumed by `clc.py`: the `formatting`
and `target` magic fields plus the user metadata mapping. -/
structure InlineNodeInfo where
  formatting : Option InlineFormatting
  target : Option DatatypedValue
  metadata : List (String × DatatypedValue)
  deriving DecidableEq, Repr

/-- `cleancopy.ast.Annotation`. -/
structure Annotation where
  content : String
  deriving DecidableEq, Repr

/-- `cleancopy.spectypes.ListType`. -/
inductive ListType
  | ordered
  | unordered
  deriving DecidableEq, Repr

/-- `INLINE_PRE_CLASSNAME` from `clc.py`. -/
def INLINE_PRE_CLASSNAME : String := "clc-fmt-pre"

/-- `UNDERLINE_TAGNAME` from `clc.py`. -/
def UNDERLINE_TAGNAME : String := "clc-ul"

/-- `HtmlAttr` from `generic_templates.py`. -/
structure HtmlAttr where
  key : String
  value : String
  deriving DecidableEq, Repr

/-- The render-tree node type: one constructor per templatey template class
instantiated by `clc.py` / `generic_templates.py`, with one field per
template field. -/
inductive Tpl
  | plaintext (text : String)
  | genericElement (tag : String) (attrs : List HtmlAttr) (body : List Tpl)
  | clcMetadata (type_ : String) (key : String) (value : String)
  | clcRichtextBlock (title : List Tpl) (metadata : List Tpl) (body : List Tpl)
      (nodeinfo : Option BlockNodeInfo) (role_if_root : Bool)
  | clcEmbeddingBlock (title : List Tpl) (metadata : List Tpl) (body : List Tpl)
      (nodeinfo : Option BlockNodeInfo)
  | clcRichtextInline (metadata : List Tpl) (body : List Tpl)
      (nodeinfo : Option InlineNodeInfo)
  | clcParagraph (body : List Tpl)
  | clcList (tag : String) (items : List Tpl)
  | clcListItem (index : Option Int) (body : List Tpl)
  | clcComment (text : String)

/-- `link_factory` from `generic_templates.py`. -/
def link_factory (body : List Tpl) (href : String) : Tpl :=
  .genericElement "a" [⟨"href", href⟩] body

/-- `heading_factory` from `generic_templates.py`: converts a zero-indexed
depth to a one-indexed heading level clamped to [1, 6]. (The Python
`type(depth) is not int` branch is a no-op for integer depths.) -/
def heading_factory (depth : Int) (body : List Tpl) : Tpl :=
  let heading_level : Int :=
    if depth < 0 then 1
    else if depth > 5 then 6
    else depth + 1
  .genericElement ("h" ++ toString heading_level) [] body

/-- `listitem_factory` from `generic_templates.py`. -/
def listitem_factory (index : Option Int) (body : List Tpl) : Tpl :=
  match index with
  | none => .genericElement "li" [] body
  | some i => .genericElement "li" [⟨"value", toString i⟩] body

/-- `formatting_factory` from `clc.py` (the variant with the `QUOTE` arm). -/
def formatting_factory (spectype : InlineFormatting) (body : List Tpl) : Tpl :=
  match spectype with
  | .pre => .genericElement "code" [⟨"class", INLINE_PRE_CLASSNAME⟩] body
  | .underline => .genericElement UNDERLINE_TAGNAME [] body
  | .strong => .genericElement "strong" [] body
  | .emphasis => .genericElement "em" [] body
  | .strike => .genericElement "s" [] body
  | .quote => .genericElement "q" [] body

/-- The `doc_coll.target_resolver` capability used by
`_wrap_in_richtext_context`: an opaque caller-supplied map from a symbolic
link target to a URL string. -/
def TargetResolver : Type := DatatypedValue → String

/-- `_wrap_in_richtext_context` from `clc.py`: optionally wrap the
transformed children in a formatting element, then optionally in a link
element whose href is the literal string value or the resolver's answer. -/
def wrap_in_richtext_context (contained_content : List Tpl)
    (info : InlineNodeInfo) (doc_coll : TargetResolver) : List Tpl :=
  let contained_content :=
    match info.formatting with
    | some f => [formatting_factory f contained_content]
    | none => contained_content
  match info.target with
  | none => contained_content
  | some t =>
    let href :=
      match t with
      | .str s => s
      | _ => doc_coll t
    [link_factory contained_content href]

/-- Instrumented copy of `wrap_in_richtext_context` that additionally
returns the list of targets passed to `doc_coll.target_resolver`, in call
order, so that resolver-consultation counts are a provable observable. -/
def wrap_in_richtext_context_traced (contained_content : List Tpl)
    (info : InlineNodeInfo) (doc_coll : TargetResolver) :
    List Tpl × List DatatypedValue :=
  let contained_content :=
    match info.formatting with
    | some f => [formatting_factory f contained_content]
    | none => contained_content
  match info.target with
  | none => (contained_content, [])
  | some t =>
    match t with
    | .str s => ([link_factory contained_content s], [])
    | _ => ([link_factory contained_content (doc_coll t)], [t])

/-- `_transform_block_role` from `clc.py`. -/
def transform_block_role (value : Bool) : String :=
  if value then " role=\"article\"" else ""

/-- `_transform_listitem_index` from `clc.py`. -/
def transform_listitem_index (value : Option Int) : String :=
  match value with
  | none => ""
  | some v => " value=\"" ++ toString v ++ "\""

/-- `ClcMetadataTemplate.from_ast_node` from `clc.py`: one `clc-metadata`
child element per user metadata entry, in mapping (insertion) order, with
`null` special-cased to an empty value. -/
def ClcMetadataTemplate.from_ast_node
    (metadata : List (String × DatatypedValue)) : List Tpl :=
  metadata.map fun kv =>
    match kv.2 with
    | .null => Tpl.clcMetadata "null" kv.1 ""
    | v => Tpl.clcMetadata (DATATYPE_NAMES v) kv.1 (htmlEscape v.value)

/-- ASCII lowercasing of one character, per Python `str.lower` on the
ASCII-only enum member names involved. -/
def pyCharLower (c : Char) : Char :=
  if 65 ≤ c.toNat ∧ c.toNat ≤ 90 then Char.ofNat (c.toNat + 32) else c

/-- Python `str.lower()` on ASCII enum member names. -/
def pyStrLower (s : String) : String := String.mk (s.data.map pyCharLower)

/-- The `.name.lower()` coercion applied to enum-valued magic fields;
`none` models the `AttributeError` a non-enum value would raise. -/
def MagicValue.enumNameLower : MagicValue → Option String
  | .enumMember n => some (pyStrLower n)
  | .data _ => none

/-- The per-field coercion inside `_transform_spec_metadatas_block`:
`formatting`/`fallback` use the enum member's lowered name, symbolic link
targets raise `NotImplementedError` (modelled as `none`), everything else is
html-escaped. -/
def coerce_magic_value (fieldname : String) (field_value : MagicValue) :
    Option String :=
  if fieldname = "formatting" then field_value.enumNameLower
  else if fieldname = "fallback" then field_value.enumNameLower
  else
    match field_value with
    | .data (DatatypedValue.mention _) => none
    | .data (DatatypedValue.tag _) => none
    | .data (DatatypedValue.var _) => none
    | .data (DatatypedValue.ref _) => none
    | .data v => some (htmlEscape v.value)
    | .enumMember _ => none

/-- The `spec_metadatas` accumulation loop of
`_transform_spec_metadatas_block`: iterate the magic fields in enum order,
skip `is_doc_metadata`, skip absent values, coerce the rest (failure of any
coercion aborts the whole call, as the Python exception would). -/
def collect_spec_metadatas (magic : List (String × Option MagicValue)) :
    Option (List (String × String)) :=
  match magic with
  | [] => some []
  | (fieldname, field_value) :: rest =>
    if fieldname = "is_doc_metadata" then collect_spec_metadatas rest
    else
      match field_value with
      | none => collect_spec_metadatas rest
      | some fv =>
        match coerce_magic_value fieldname fv with
        | none => none
        | some cv => (collect_spec_metadatas rest).map ((fieldname, cv) :: ·)

/-- Lexicographic code-point comparison of character lists: the order Python
string comparison (and hence `sorted`) uses. -/
def charListLe : List Char → List Char → Bool
  | [], _ => true
  | _ :: _, [] => false
  | a :: as, b :: bs =>
    if a.toNat < b.toNat then true
    else if b.toNat < a.toNat then false
    else charListLe as bs

/-- Python string `<=` (code-point lexicographic order). -/
def pyStrLe (a b : String) : Bool := charListLe a.data b.data

/-- `pyStrLe` as a relation, for use with `List.insertionSort`. -/
def pyStrLeRel (a b : String) : Prop := pyStrLe a b = true

instance : DecidableRel pyStrLeRel := fun a b =>
  inferInstanceAs (Decidable (pyStrLe a b = true))

/-- The `sorted(spec_metadatas)` key ordering of
`_transform_spec_metadatas_block`: the dict's keys sorted lexicographically
(stable sort, matching Python `sorted`). -/
def spec_metadata_sorted_keys (spec_metadatas : List (String × String)) :
    List String :=
  List.insertionSort pyStrLeRel (spec_metadatas.map Prod.fst)

/-- `_transform_spec_metadatas_block` from `clc.py`: renders the collected
magic metadata as a leading-space-joined attribute list, keys sorted
lexicographically (Python `sorted`) with underscores replaced by dashes. -/
def transform_spec_metadatas_block (value : Option BlockNodeInfo) :
    Option String :=
  match value with
  | none => some ""
  | some v =>
    (collect_spec_metadatas v.magic).map fun spec_metadatas =>
      if spec_metadatas.isEmpty then ""
      else
        let sorted_keys := spec_metadata_sorted_keys spec_metadatas
        let to_join := "" :: sorted_keys.map (fun fieldname =>
          let coerced_fieldname := fieldname.replace "_" "-"
          let coerced_value := (spec_metadatas.lookup fieldname).getD ""
          coerced_fieldname ++ "=\"" ++ coerced_value ++ "\"")
        String.intercalate " " to_join

/- The source-AST block/paragraph/inline tree, from `cleancopy.ast` as
consumed by the `from_ast_node` constructors in `clc.py`. -/
mutual

inductive BlockContent
  | paragraph (p : Paragraph)
  | embedding (e : EmbeddingBlockNode)
  | richtext (r : RichtextBlockNode)

inductive RichtextBlockNode
  | mk (depth : Int) (title : Option RichtextInlineNode)
      (info : Option BlockNodeInfo) (content : List BlockContent)

inductive EmbeddingBlockNode
  | mk (depth : Int) (title : Option RichtextInlineNode)
      (info : Option BlockNodeInfo) (content : Option String)

inductive Paragraph
  | mk (content : List ParagraphContent)

inductive ParagraphContent
  | inline (n : RichtextInlineNode)
  | list (l : ListBlock)
  | annot (a : Annotation)

inductive ListBlock
  | mk (type_ : ListType) (content : List ListItem)

inductive ListItem
  | mk (index : Option Int) (content : List Paragraph)

inductive RichtextInlineNode
  | mk (info : Option InlineNodeInfo) (content : List InlineContent)

inductive InlineContent
  | str (s : String)
  | node (n : RichtextInlineNode)

end

/-- `node.depth`. -/
def RichtextBlockNode.depth : RichtextBlockNode → Int
  | .mk d _ _ _ => d

/-- `node.title`. -/
def RichtextBlockNode.title : RichtextBlockNode → Option RichtextInlineNode
  | .mk _ t _ _ => t

/-- `node.info`. -/
def RichtextBlockNode.info : RichtextBlockNode → Option BlockNodeInfo
  | .mk _ _ i _ => i

/-- `node.content`. -/
def RichtextBlockNode.content : RichtextBlockNode → List BlockContent
  | .mk _ _ _ c => c

/-- `node.index`. -/
def ListItem.index : ListItem → Option Int
  | .mk i _ => i

/-- `node.content`. -/
def ListItem.content : ListItem → List Paragraph
  | .mk _ c => c

/-- `ClcAnnotationTemplate.from_ast_node` from `clc.py`. -/
def ClcAnnotationTemplate.from_ast_node (node : Annotation) : Tpl :=
  .clcComment node.content

/- The `from_ast_node` family of `clc.py`, one Lean function per template
class's constructor plus one helper per Python `for` loop over children.
`doc_coll` carries the collection's target resolver, the only part of the
document collection these constructors consult. -/
mutual

/-- `ClcRichtextBlocknodeTemplate.from_ast_node` from `clc.py`. -/
def ClcRichtextBlocknodeTemplate.from_ast_node (doc_coll : TargetResolver) :
    RichtextBlockNode → Tpl
  | .mk depth title info content =>
    Tpl.clcRichtextBlock
      (match title with
        | none => []
        | some t =>
          [heading_factory depth
            [ClcRichtextInlineNodeTemplate.from_ast_node doc_coll t]])
      (match info with
        | some i => ClcMetadataTemplate.from_ast_node i.metadata
        | none => [])
      (templatify_block_contents doc_coll content)
      info
      (decide (depth ≤ 0))

/-- The `for paragraph_or_node in node.content` loop of
`ClcRichtextBlocknodeTemplate.from_ast_node`. -/
def templatify_block_contents (doc_coll : TargetResolver) :
    List BlockContent → List Tpl
  | [] => []
  | .paragraph p :: rest =>
    ClcParagraphTemplate.from_ast_node doc_coll p
      :: templatify_block_contents doc_coll rest
  | .embedding e :: rest =>
    ClcEmbeddingBlocknodeTemplate.from_ast_node doc_coll e
      :: templatify_block_contents doc_coll rest
  | .richtext r :: rest =>
    ClcRichtextBlocknodeTemplate.from_ast_node doc_coll r
      :: templatify_block_contents doc_coll rest

/-- `ClcEmbeddingBlocknodeTemplate.from_ast_node` from `clc.py`. -/
def ClcEmbeddingBlocknodeTemplate.from_ast_node (doc_coll : TargetResolver) :
    EmbeddingBlockNode → Tpl
  | .mk depth title info content =>
    Tpl.clcEmbeddingBlock
      (match title with
        | none => []
        | some t =>
          [heading_factory depth
            [ClcRichtextInlineNodeTemplate.from_ast_node doc_coll t]])
      (match info with
        | some i => ClcMetadataTemplate.from_ast_node i.metadata
        | none => [])
      (match content with
        | none => []
        | some text => [Tpl.plaintext text])
      info

/-- `ClcParagraphTemplate.from_ast_node` from `clc.py`. -/
def ClcParagraphTemplate.from_ast_node (doc_coll : TargetResolver) :
    Paragraph → Tpl
  | .mk content =>
    Tpl.clcParagraph (templatify_paragraph_contents doc_coll content)

/-- The `for nested in node.content` loop of
`ClcParagraphTemplate.from_ast_node`. -/
def templatify_paragraph_contents (doc_coll : TargetResolver) :
    List ParagraphContent → List Tpl
  | [] => []
  | .inline n :: rest =>
    ClcRichtextInlineNodeTemplate.from_ast_node doc_coll n
      :: templatify_paragraph_contents doc_coll rest
  | .list l :: rest =>
    ClcListTemplate.from_ast_node doc_coll l
      :: templatify_paragraph_contents doc_coll rest
  | .annot a :: rest =>
    ClcAnnotationTemplate.from_ast_node a
      :: templatify_paragraph_contents doc_coll rest

/-- `ClcListTemplate.from_ast_node` from `clc.py`. -/
def ClcListTemplate.from_ast_node (doc_coll : TargetResolver) :
    ListBlock → Tpl
  | .mk type_ content =>
    Tpl.clcList
      (match type_ with
        | .ordered => "ol"
        | .unordered => "ul")
      (templatify_list_items doc_coll content)

/-- The `for nested in node.content` loop of
`ClcListTemplate.from_ast_node`. -/
def templatify_list_items (doc_coll : TargetResolver) :
    List ListItem → List Tpl
  | [] => []
  | item :: rest =>
    ClcListItemTemplate.from_ast_node doc_coll item
      :: templatify_list_items doc_coll rest

/-- `ClcListItemTemplate.from_ast_node` from `clc.py`. -/
def ClcListItemTemplate.from_ast_node (doc_coll : TargetResolver) :
    ListItem → Tpl
  | .mk index content =>
    Tpl.clcListItem index (templatify_item_paragraphs doc_coll content)

/-- The `for paragraph in node.content` comprehension of
`ClcListItemTemplate.from_ast_node`. -/
def templatify_item_paragraphs (doc_coll : TargetResolver) :
    List Paragraph → List Tpl
  | [] => []
  | p :: rest =>
    ClcParagraphTemplate.from_ast_node doc_coll p
      :: templatify_item_paragraphs doc_coll rest

/-- `ClcRichtextInlineNodeTemplate.from_ast_node` from `clc.py`. -/
def ClcRichtextInlineNodeTemplate.from_ast_node (doc_coll : TargetResolver) :
    RichtextInlineNode → Tpl
  | .mk info content =>
    let contained_content := templatify_inline_contents doc_coll content
    match info with
    | none => Tpl.clcRichtextInline [] contained_content none
    | some i =>
      Tpl.clcRichtextInline
        (ClcMetadataTemplate.from_ast_node i.metadata)
        (wrap_in_richtext_context contained_content i doc_coll)
        (some i)

/-- The `for content_segment in node.content` loop of
`ClcRichtextInlineNodeTemplate.from_ast_node`. -/
def templatify_inline_contents (doc_coll : TargetResolver) :
    List InlineContent → List Tpl
  | [] => []
  | .str s :: rest =>
    Tpl.plaintext s :: templatify_inline_contents doc_coll rest
  | .node n :: rest =>
    ClcRichtextInlineNodeTemplate.from_ast_node doc_coll n
      :: templatify_inline_contents doc_coll rest

end

/-- The errors `HtmlDocumentCollection.add` (documents.py) can raise:
`ValueError('Duplicate document ID!')`, the impossible-branch
`RuntimeError('... multiple root nodes ...')`, and
`TypeError('Can only specify one document source ...')`. -/
inductive AddError
  | duplicateDocumentId
  | multipleRootNodes
  | onlyOneDocumentSource
  deriving DecidableEq, Repr

/-- An entry of the collection: `DocnoteHtmlDocument` or `ClcHtmlDocument`
(documents.py), carrying the source object and the intermediate
representation. `DSrc`/`KSrc`/`IR` stand for the externally supplied
`SummaryTreeNode`, `cleancopy.ast.Document` and templatey template types. -/
inductive HtmlDocument (DSrc KSrc IR : Type)
  | docnote (src : DSrc) (intermediate_representation : IR)
  | clc (src : KSrc) (intermediate_representation : IR)
  deriving DecidableEq, Repr

/-- `HtmlDocumentCollection` (documents.py): the `_documents` dict, modelled
as an insertion-ordered association list keyed by the document id. -/
structure HtmlDocumentCollection (DSrc KSrc IR : Type) where
  documents : List (String × HtmlDocument DSrc KSrc IR)
  deriving DecidableEq, Repr

/-- `HtmlDocumentCollection.add` (documents.py), as a pure state
transformer returning the raised error (if any) together with the state of
the collection when the call returns. `from_summary` stands for
`ModuleSummaryTemplate.from_summary` and `write_document` for
`self.writer.write_document`, both external to this method. -/
def HtmlDocumentCollection.add {DSrc KSrc IR : Type}
    (from_summary : DSrc → IR) (write_document : KSrc → List IR)
    (c : HtmlDocumentCollection DSrc KSrc IR) (id_ : String)
    (docnote_src : Option DSrc) (clc_src : Option KSrc) :
    Option AddError × HtmlDocumentCollection DSrc KSrc IR :=
  if (c.documents.lookup id_).isSome then
    (some .duplicateDocumentId, c)
  else
    match docnote_src, clc_src with
    | some d, none =>
      (none, ⟨c.documents ++ [(id_, .docnote d (from_summary d))]⟩)
    | none, some k =>
      match write_document k with
      | [templatified] => (none, ⟨c.documents ++ [(id_, .clc k templatified)]⟩)
      | _ => (some .multipleRootNodes, c)
    | _, _ => (some .onlyOneDocumentSource, c)

/-- `PluginInjection` from `plugin_types.py`. -/
structure PluginInjection where
  widgets : Option (List Tpl) := none
  attrs : Option (List HtmlAttr) := none

/-- `EmbeddingsPlugin` from `plugin_types.py`: a named callable taking the
embedding node and the embed-type string. The embedding node argument is
passed through opaquely here. -/
structure EmbeddingsPlugin where
  plugin_name : String
  call : EmbeddingBlockNode → String → Option PluginInjection

/-- Modelled from the spec: the embeddings-plugin invocation loop is missing
from `src/` (only the `EmbeddingsPlugin` protocol and its short-circuiting
contract are declared in `plugin_types.py`). Per the spec, the plugins
registered for an embed-type are invoked in registration order and the first
non-`None` injection is applied, skipping the rest. -/
def apply_embeddings_plugins (plugins : List EmbeddingsPlugin)
    (node : EmbeddingBlockNode) (embedding_type : String) :
    Option PluginInjection :=
  match plugins with
  | [] => none
  | p :: rest =>
    match p.call node embedding_type with
    | some injection => some injection
    | none => apply_embeddings_plugins rest node embedding_type

/-- Instrumented copy of `apply_embeddings_plugins` that additionally
returns the names of the plugins that were invoked, in call order, so that
short-circuiting is a provable observable. -/
def apply_embeddings_plugins_traced (plugins : List EmbeddingsPlugin)
    (node : EmbeddingBlockNode) (embedding_type : String) :
    Option PluginInjection × List String :=
  match plugins with
  | [] => (none, [])
  | p :: rest =>
    match p.call node embedding_type with
    | some injection => (some injection, [p.plugin_name])
    | none =>
      let r := apply_embeddings_plugins_traced rest node embedding_type
      (r.1, p.plugin_name :: r.2)

/-- The `key` field of a rendered metadata template (empty for any other
template kind). -/
def Tpl.metadataKey : Tpl → String
  | .clcMetadata _ key _ => key
  | _ => ""

/-- A concrete target resolver for concrete evaluations. -/
def exResolver : TargetResolver := fun _ => "#"

/-- A depth-0 richtext block with two paragraph children. -/
def exDepth0Block : RichtextBlockNode :=
  .mk 0 none none
    [.paragraph (.mk [.inline (.mk none [.str "A"])]),
     .paragraph (.mk [.inline (.mk none [.str "B"])])]

/-- A paragraph containing a single annotation. -/
def exAnnotationParagraph : Paragraph := .mk [.annot ⟨"hi"⟩]

/-- A metadata mapping whose insertion order is not lexicographic. -/
def exMetadata : List (String × DatatypedValue) :=
  [("b", .str "x"), ("a", .str "y")]

/-- A magic-field listing exercising the skip, coercion and sort paths of
`_transform_spec_metadatas_block`. -/
def exMagic : List (String × Option MagicValue) :=
  [("is_doc_metadata", some (.data (.bool "True"))),
   ("formatting", some (.enumMember "STRONG")),
   ("fallback", none),
   ("anchor", some (.data (.str "z")))]

/-- A concrete embedding node for plugin evaluations. -/
def exEmbeddingNode : EmbeddingBlockNode := .mk 1 none none (some "blob")

/-- A concrete plugin injection. -/
def exInjection : PluginInjection :=
  ⟨some [Tpl.plaintext "code"], some [⟨"with", "attr"⟩]⟩

/-- A plugin that never matches. -/
def exPluginMiss : EmbeddingsPlugin := ⟨"miss", fun _ _ => none⟩

/-- A plugin matching embed-type "code". -/
def exPluginHit : EmbeddingsPlugin :=
  ⟨"hit", fun _ ty => if ty = "code" then some exInjection else none⟩

/-- A second plugin that would also match "code" but must never be
invoked once `exPluginHit` has matched. -/
def exPluginShadowed : EmbeddingsPlugin :=
  ⟨"shadowed", fun _ _ => some ⟨none, none⟩⟩

/-- C1 counterexample: transforming a `Richtext` block at depth 0 with
children `[A, B]` does not emit the children directly into the parent's
render sequence; it produces a single enclosing `clc-block` element holding
them (only its `role_if_root` flag records the depth). -/
theorem C1_counterexample :
    ClcRichtextBlocknodeTemplate.from_ast_node exResolver exDepth0Block
      = Tpl.clcRichtextBlock [] []
          [Tpl.clcParagraph [Tpl.clcRichtextInline [] [Tpl.plaintext "A"] none],
           Tpl.clcParagraph [Tpl.clcRichtextInline [] [Tpl.plaintext "B"] none]]
          none true
    ∧ templatify_block_contents exResolver exDepth0Block.content
      = [Tpl.clcParagraph [Tpl.clcRichtextInline [] [Tpl.plaintext "A"] none],
         Tpl.clcParagraph [Tpl.clcRichtextInline [] [Tpl.plaintext "B"] none]]
    ∧ [ClcRichtextBlocknodeTemplate.from_ast_node exResolver exDepth0Block]
      ≠ [Tpl.clcParagraph [Tpl.clcRichtextInline [] [Tpl.plaintext "A"] none],
         Tpl.clcParagraph [Tpl.clcRichtextInline [] [Tpl.plaintext "B"] none]] := by
  refine ⟨rfl, rfl, ?_⟩
  intro h
  have := congrArg List.length h
  simp at this

/-- C1 amended: every Richtext or Embedding block, at every depth, is
transformed into exactly one enclosing `clc-block` element holding the
transformed children; depth 0 is distinguished only by the `role_if_root`
flag (rendered as a `role="article"` attribute), not by omitting the
wrapper. -/
theorem C1_amended_block_always_wrapped (doc_coll : TargetResolver)
    (depth : Int) (title : Option RichtextInlineNode)
    (info : Option BlockNodeInfo) (content : List BlockContent)
    (ec : Option String) (rest : List BlockContent) :
    ClcRichtextBlocknodeTemplate.from_ast_node doc_coll
        (.mk depth title info content)
      = Tpl.clcRichtextBlock
          (match title with
            | none => []
            | some t =>
              [heading_factory depth
                [ClcRichtextInlineNodeTemplate.from_ast_node doc_coll t]])
          (match info with
            | some i => ClcMetadataTemplate.from_ast_node i.metadata
            | none => [])
          (templatify_block_contents doc_coll content)
          info
          (decide (depth ≤ 0))
    ∧ ClcEmbeddingBlocknodeTemplate.from_ast_node doc_coll
        (.mk depth title info ec)
      = Tpl.clcEmbeddingBlock
          (match title with
            | none => []
            | some t =>
              [heading_factory depth
                [ClcRichtextInlineNodeTemplate.from_ast_node doc_coll t]])
          (match info with
            | some i => ClcMetadataTemplate.from_ast_node i.metadata
            | none => [])
          (match ec with
            | none => []
            | some text => [Tpl.plaintext text])
          info
    ∧ templatify_block_contents doc_coll
        (.richtext (.mk depth title info content) :: rest)
      = ClcRichtextBlocknodeTemplate.from_ast_node doc_coll
          (.mk depth title info content)
          :: templatify_block_contents doc_coll rest
    ∧ templatify_block_contents doc_coll
        (.embedding (.mk depth title info ec) :: rest)
      = ClcEmbeddingBlocknodeTemplate.from_ast_node doc_coll
          (.mk depth title info ec)
          :: templatify_block_contents doc_coll rest
    ∧ transform_block_role true = " role=\"article\""
    ∧ transform_block_role false = "" :=
  ⟨rfl, rfl, rfl, rfl, rfl, rfl⟩

/-- C2: for an inline node whose info carries both a formatting kind and a
link target, the transformed children are wrapped in the formatting element
first and that result is wrapped in the link element, so the output is
always `link(wraps=[formatting(wraps=[...])])`. -/
theorem C2_formatting_wrapped_inside_link (content : List Tpl)
    (f : InlineFormatting) (t : DatatypedValue)
    (metadata : List (String × DatatypedValue)) (doc_coll : TargetResolver) :
    wrap_in_richtext_context content ⟨some f, some t, metadata⟩ doc_coll
      = [link_factory [formatting_factory f content]
          (match t with
            | .str s => s
            | _ => doc_coll t)] := by
  cases t <;> rfl

/-- C5: a literal-string link target is used verbatim as the URL with no
resolver call; every other target kind is resolved by exactly one opaque
call to the caller-supplied target resolver, whose answer becomes the URL.
The trace component lists the resolver calls made. -/
theorem C5_target_resolution (content : List Tpl)
    (formatting : Option InlineFormatting)
    (metadata : List (String × DatatypedValue)) (doc_coll : TargetResolver) :
    (∀ info, (wrap_in_richtext_context_traced content info doc_coll).1
        = wrap_in_richtext_context content info doc_coll)
    ∧ (∀ s, wrap_in_richtext_context_traced content
          ⟨formatting, some (.str s), metadata⟩ doc_coll
        = ([link_factory
              (match formatting with
                | some f => [formatting_factory f content]
                | none => content) s], []))
    ∧ (∀ t, (∀ s, t ≠ DatatypedValue.str s) →
        wrap_in_richtext_context_traced content
            ⟨formatting, some t, metadata⟩ doc_coll
          = ([link_factory
                (match formatting with
                  | some f => [formatting_factory f content]
                  | none => content) (doc_coll t)], [t])) := by
  refine ⟨?_, ?_, ?_⟩
  · intro info
    obtain ⟨fo, tgt, m⟩ := info
    cases tgt with
    | none => cases fo <;> rfl
    | some t => cases t <;> cases fo <;> rfl
  · intro s
    cases formatting <;> rfl
  · intro t ht
    cases t with
    | str s => exact absurd rfl (ht s)
    | int v => cases formatting <;> rfl
    | dec v => cases formatting <;> rfl
    | bool v => cases formatting <;> rfl
    | null => cases formatting <;> rfl
    | mention v => cases formatting <;> rfl
    | tag v => cases formatting <;> rfl
    | var v => cases formatting <;> rfl
    | ref v => cases formatting <;> rfl

/-- C5 witness: concrete literal and reference targets. -/
theorem C5_target_resolution_witness :
    wrap_in_richtext_context_traced [Tpl.plaintext "x"]
        ⟨none, some (.str "https://example.test"), []⟩ exResolver
      = ([link_factory [Tpl.plaintext "x"] "https://example.test"], [])
    ∧ wrap_in_richtext_context_traced [Tpl.plaintext "x"]
        ⟨none, some (.ref "r"), []⟩ exResolver
      = ([link_factory [Tpl.plaintext "x"] (exResolver (.ref "r"))],
         [DatatypedValue.ref "r"]) :=
  ⟨(C5_target_resolution [Tpl.plaintext "x"] none [] exResolver).2.1
      "https://example.test",
   (C5_target_resolution [Tpl.plaintext "x"] none [] exResolver).2.2
      (.ref "r") (fun _ h => DatatypedValue.noConfusion h)⟩

/-- C6 counterexample: an Annotation does not expand into zero render
nodes; a paragraph containing one annotation gains exactly one render node
(the HTML-comment template) for it. -/
theorem C6_counterexample :
    ClcParagraphTemplate.from_ast_node exResolver exAnnotationParagraph
      = Tpl.clcParagraph [Tpl.clcComment "hi"]
    ∧ ([Tpl.clcComment "hi"] : List Tpl) ≠ [] :=
  ⟨rfl, fun h => List.noConfusion h⟩

/-- C6 amended: every Annotation is transformed into exactly one render
node, an HTML comment carrying its text; every paragraph child (annotations
included) contributes exactly one node to the paragraph's render body. -/
theorem C6_amended_annotation_one_comment (doc_coll : TargetResolver)
    (a : Annotation) (rest : List ParagraphContent)
    (l : List ParagraphContent) :
    ClcAnnotationTemplate.from_ast_node a = Tpl.clcComment a.content
    ∧ templatify_paragraph_contents doc_coll (.annot a :: rest)
        = Tpl.clcComment a.content
            :: templatify_paragraph_contents doc_coll rest
    ∧ (templatify_paragraph_contents doc_coll l).length = l.length := by
  refine ⟨rfl, rfl, ?_⟩
  induction l with
  | nil => rfl
  | cons x xs ih => cases x <;> simp [templatify_paragraph_contents, ih]

/-- C9: a rendered list item keeps exactly the item's own explicit index
(no position-based synthesis), and its rendered `value` attribute is
present exactly when the index is present. -/
theorem C9_listitem_explicit_index (doc_coll : TargetResolver)
    (index : Option Int) (content : List Paragraph) (n : Int)
    (items : List ListItem) :
    ClcListItemTemplate.from_ast_node doc_coll (.mk index content)
      = Tpl.clcListItem index (templatify_item_paragraphs doc_coll content)
    ∧ templatify_list_items doc_coll items
      = items.map (fun item =>
          Tpl.clcListItem item.index
            (templatify_item_paragraphs doc_coll item.content))
    ∧ transform_listitem_index (some n) = " value=\"" ++ toString n ++ "\""
    ∧ (transform_listitem_index index = "" ↔ index = none) := by
  refine ⟨rfl, ?_, rfl, ?_⟩
  · induction items with
    | nil => rfl
    | cons item rest ih =>
      cases item
      simp [templatify_list_items, ClcListItemTemplate.from_ast_node,
        ListItem.index, ListItem.content, ih]
  · cases index with
    | none => simp [transform_listitem_index]
    | some v =>
      simp only [transform_listitem_index]
      constructor
      · intro h
        have hlen := congrArg String.length h
        rw [String.length_append, String.length_append] at hlen
        have h8 : (" value=\"").length = 8 := rfl
        have h1 : ("\"").length = 1 := rfl
        have h0 : ("" : String).length = 0 := rfl
        omega
      · intro h
        exact Option.noConfusion h

/-- C10: the heading factory emits tag h(n) with n being depth+1 clamped to
[1, 6]: negative depths give h1, depths above 5 give h6, depths in [0, 5]
give h(depth+1). -/
theorem C10_heading_factory_clamp (depth : Int) (body : List Tpl) :
    (depth < 0 → heading_factory depth body = Tpl.genericElement "h1" [] body)
    ∧ (5 < depth →
        heading_factory depth body = Tpl.genericElement "h6" [] body)
    ∧ (0 ≤ depth → depth ≤ 5 →
        heading_factory depth body
          = Tpl.genericElement ("h" ++ toString (depth + 1)) [] body)
    ∧ heading_factory depth body
        = Tpl.genericElement ("h" ++ toString (max 1 (min 6 (depth + 1))))
            [] body := by
  refine ⟨?_, ?_, ?_, ?_⟩
  · intro h
    simp only [heading_factory, if_pos h]
    rfl
  · intro h
    have h0 : ¬ depth < 0 := by omega
    have h5 : depth > 5 := h
    simp only [heading_factory, if_neg h0, if_pos h5]
    rfl
  · intro hlo hhi
    have h0 : ¬ depth < 0 := by omega
    have h5 : ¬ depth > 5 := by omega
    simp [heading_factory, h0, h5]
  · by_cases h0 : depth < 0
    · have : max 1 (min 6 (depth + 1)) = 1 := by omega
      rw [this]
      simp [heading_factory, h0]
    · by_cases h5 : depth > 5
      · have : max 1 (min 6 (depth + 1)) = 6 := by omega
        rw [this]
        simp [heading_factory, h0, h5]
      · have : max 1 (min 6 (depth + 1)) = depth + 1 := by omega
        rw [this]
        simp [heading_factory, h0, h5]

/-- C10 witness: concrete depths -3, 7 and 2. -/
theorem C10_heading_factory_clamp_witness :
    heading_factory (-3) [] = Tpl.genericElement "h1" [] []
    ∧ heading_factory 7 [] = Tpl.genericElement "h6" [] []
    ∧ heading_factory 2 []
        = Tpl.genericElement ("h" ++ toString ((2 : Int) + 1)) [] [] :=
  ⟨(C10_heading_factory_clamp (-3) []).1 (by decide),
   (C10_heading_factory_clamp 7 []).2.1 (by decide),
   (C10_heading_factory_clamp 2 []).2.2.1 (by decide) (by decide)⟩

theorem charListLe_total (as : List Char) :
    ∀ bs, charListLe as bs = true ∨ charListLe bs as = true := by
  induction as with
  | nil => intro bs; left; rfl
  | cons a as ih =>
    intro bs
    cases bs with
    | nil => right; rfl
    | cons b bs =>
      rcases Nat.lt_trichotomy a.toNat b.toNat with h | h | h
      · left; simp [charListLe, h]
      · rcases ih bs with h2 | h2
        · left; simp [charListLe, h, h2]
        · right; simp [charListLe, h.symm, h2]
      · right; simp [charListLe, h]

theorem charListLe_cons_iff (a b : Char) (as bs : List Char) :
    charListLe (a :: as) (b :: bs) = true
      ↔ a.toNat < b.toNat
        ∨ (a.toNat = b.toNat ∧ charListLe as bs = true) := by
  simp only [charListLe]
  split_ifs with h1 h2
  · simp [h1]
  · apply iff_of_false
    · simp
    · rintro (h | ⟨he, _⟩) <;> omega
  · have he : a.toNat = b.toNat := by omega
    simp [h1, he]

theorem charListLe_trans (as : List Char) :
    ∀ bs cs, charListLe as bs = true → charListLe bs cs = true →
      charListLe as cs = true := by
  induction as with
  | nil => intro bs cs h1 h2; rfl
  | cons a as ih =>
    intro bs cs h1 h2
    cases bs with
    | nil => simp [charListLe] at h1
    | cons b bs =>
      cases cs with
      | nil => simp [charListLe] at h2
      | cons c cs =>
        rw [charListLe_cons_iff] at h1 h2 ⊢
        rcases h1 with h1 | ⟨e1, r1⟩ <;> rcases h2 with h2 | ⟨e2, r2⟩
        · left; omega
        · left; omega
        · left; omega
        · right; exact ⟨by omega, ih bs cs r1 r2⟩

theorem pyStrLeRel_total : ∀ a b : String, pyStrLeRel a b ∨ pyStrLeRel b a :=
  fun a b => charListLe_total a.data b.data

theorem pyStrLeRel_trans : ∀ a b c : String,
    pyStrLeRel a b → pyStrLeRel b c → pyStrLeRel a c :=
  fun a b c => charListLe_trans a.data b.data c.data

theorem metadata_template_keys (metadata : List (String × DatatypedValue)) :
    (ClcMetadataTemplate.from_ast_node metadata).map Tpl.metadataKey
      = metadata.map Prod.fst := by
  induction metadata with
  | nil => rfl
  | cons kv rest ih =>
    obtain ⟨k, v⟩ := kv
    cases v <;>
      simp [ClcMetadataTemplate.from_ast_node, Tpl.metadataKey] at ih ⊢ <;>
      exact ih

theorem collect_spec_metadatas_no_doc_meta
    (magic : List (String × Option MagicValue)) :
    ∀ ps, collect_spec_metadatas magic = some ps →
      "is_doc_metadata" ∉ ps.map Prod.fst := by
  induction magic with
  | nil =>
    intro ps h
    simp [collect_spec_metadatas] at h
    subst h
    simp
  | cons fv rest ih =>
    intro ps h
    obtain ⟨fieldname, field_value⟩ := fv
    by_cases hf : fieldname = "is_doc_metadata"
    · simp only [collect_spec_metadatas, if_pos hf] at h
      exact ih ps h
    · simp only [collect_spec_metadatas, if_neg hf] at h
      cases field_value with
      | none => exact ih ps h
      | some fv2 =>
        have h2 : (match coerce_magic_value fieldname fv2 with
            | none => none
            | some cv =>
              Option.map (fun x => (fieldname, cv) :: x)
                (collect_spec_metadatas rest)) = some ps := h
        cases hc : coerce_magic_value fieldname fv2 with
        | none => rw [hc] at h2; simp at h2
        | some cv =>
          rw [hc] at h2
          simp only [Option.map_eq_some'] at h2
          obtain ⟨ps2, hps2, rfl⟩ := h2
          simp only [List.map_cons, List.mem_cons]
          rintro (he | he)
          · exact hf he.symm
          · exact ih ps2 hps2 he

/-- C3: calling `add` with an id already present fails with the
duplicate-id error and leaves the collection, in particular the previously
stored entry under that id, unchanged. -/
theorem C3_duplicate_id_rejected {DSrc KSrc IR : Type}
    (from_summary : DSrc → IR) (write_document : KSrc → List IR)
    (c : HtmlDocumentCollection DSrc KSrc IR) (id_ : String)
    (docnote_src : Option DSrc) (clc_src : Option KSrc)
    (h : (c.documents.lookup id_).isSome) :
    HtmlDocumentCollection.add from_summary write_document c id_
        docnote_src clc_src
      = (some .duplicateDocumentId, c)
    ∧ ((HtmlDocumentCollection.add from_summary write_document c id_
        docnote_src clc_src).2).documents.lookup id_
      = c.documents.lookup id_ := by
  have h1 : HtmlDocumentCollection.add from_summary write_document c id_
      docnote_src clc_src = (some .duplicateDocumentId, c) := by
    simp [HtmlDocumentCollection.add, h]
  exact ⟨h1, by rw [h1]⟩

/-- C3 witness: a collection already holding the id "x" rejects a second
add under "x" and is left unchanged. -/
theorem C3_duplicate_id_rejected_witness :
    HtmlDocumentCollection.add (fun s : String => s) (fun s : String => [s])
        ⟨[("x", .clc "srcA" "irA")]⟩ "x" none (some "srcB")
      = (some .duplicateDocumentId, ⟨[("x", .clc "srcA" "irA")]⟩) :=
  (C3_duplicate_id_rejected (fun s : String => s) (fun s : String => [s])
    ⟨[("x", .clc "srcA" "irA")]⟩ "x" none (some "srcB") (by rfl)).1

/-- C8: supplying zero sources or both sources to `add` is rejected with an
error and leaves the collection unchanged (the mismatched-arity error when
the id is fresh), and `add` succeeds only when exactly one source kind is
supplied. -/
theorem C8_source_arity {DSrc KSrc IR : Type}
    (from_summary : DSrc → IR) (write_document : KSrc → List IR)
    (c : HtmlDocumentCollection DSrc KSrc IR) (id_ : String)
    (docnote_src : Option DSrc) (clc_src : Option KSrc) :
    ((docnote_src = none ∧ clc_src = none)
        ∨ (docnote_src.isSome ∧ clc_src.isSome) →
      (HtmlDocumentCollection.add from_summary write_document c id_
          docnote_src clc_src).2 = c
      ∧ (HtmlDocumentCollection.add from_summary write_document c id_
          docnote_src clc_src).1.isSome)
    ∧ ((docnote_src = none ∧ clc_src = none)
        ∨ (docnote_src.isSome ∧ clc_src.isSome) →
      (c.documents.lookup id_).isSome = false →
      HtmlDocumentCollection.add from_summary write_document c id_
          docnote_src clc_src
        = (some .onlyOneDocumentSource, c))
    ∧ ((HtmlDocumentCollection.add from_summary write_document c id_
          docnote_src clc_src).1 = none →
      (docnote_src.isSome ∧ clc_src = none)
      ∨ (docnote_src = none ∧ clc_src.isSome)) := by
  by_cases hdup : (c.documents.lookup id_).isSome = true
  · refine ⟨?_, ?_, ?_⟩
    · intro _
      simp [HtmlDocumentCollection.add, hdup]
    · intro _ hfresh
      rw [hdup] at hfresh
      cases hfresh
    · intro hnone
      exfalso
      simp [HtmlDocumentCollection.add, hdup] at hnone
  · cases docnote_src with
    | some d =>
      cases clc_src with
      | some k =>
        refine ⟨?_, ?_, ?_⟩
        · intro _
          constructor <;> simp [HtmlDocumentCollection.add, hdup]
        · intro _ _
          simp [HtmlDocumentCollection.add, hdup]
        · intro hnone
          exfalso
          simp [HtmlDocumentCollection.add, hdup] at hnone
      | none =>
        refine ⟨?_, ?_, ?_⟩
        · rintro (⟨h1, _⟩ | ⟨_, h2⟩)
          · cases h1
          · simp at h2
        · rintro (⟨h1, _⟩ | ⟨_, h2⟩) _
          · cases h1
          · simp at h2
        · intro _
          exact Or.inl ⟨rfl, rfl⟩
    | none =>
      cases clc_src with
      | none =>
        refine ⟨?_, ?_, ?_⟩
        · intro _
          constructor <;> simp [HtmlDocumentCollection.add, hdup]
        · intro _ _
          simp [HtmlDocumentCollection.add, hdup]
        · intro hnone
          exfalso
          simp [HtmlDocumentCollection.add, hdup] at hnone
      | some k =>
        refine ⟨?_, ?_, ?_⟩
        · rintro (⟨_, h2⟩ | ⟨h1, _⟩)
          · cases h2
          · simp at h1
        · rintro (⟨_, h2⟩ | ⟨h1, _⟩) _
          · cases h2
          · simp at h1
        · intro _
          exact Or.inr ⟨rfl, rfl⟩

/-- C8 witness: zero sources and both sources are each rejected with the
mismatched-arity error, leaving the empty collection unchanged. -/
theorem C8_source_arity_witness :
    HtmlDocumentCollection.add (fun s : String => s) (fun s : String => [s])
        (⟨[]⟩ : HtmlDocumentCollection String String String) "x" none none
      = (some .onlyOneDocumentSource, ⟨[]⟩)
    ∧ HtmlDocumentCollection.add (fun s : String => s) (fun s : String => [s])
        (⟨[]⟩ : HtmlDocumentCollection String String String) "x"
        (some "d") (some "k")
      = (some .onlyOneDocumentSource, ⟨[]⟩) :=
  ⟨(C8_source_arity (fun s : String => s) (fun s : String => [s])
      ⟨[]⟩ "x" none none).2.1 (Or.inl ⟨rfl, rfl⟩) rfl,
   (C8_source_arity (fun s : String => s) (fun s : String => [s])
      ⟨[]⟩ "x" (some "d") (some "k")).2.1 (Or.inr ⟨rfl, rfl⟩) rfl⟩

/-- C7: with the plugins for an embed-type invoked in registration order,
the first plugin returning a non-`None` injection short-circuits the rest:
the invocation trace covers exactly the plugins up to and including the
first match, and the first match's injection is the result. -/
theorem C7_embeddings_first_match (pre : List EmbeddingsPlugin)
    (p : EmbeddingsPlugin) (post : List EmbeddingsPlugin)
    (node : EmbeddingBlockNode) (embedding_type : String)
    (injection : PluginInjection)
    (hpre : ∀ q ∈ pre, q.call node embedding_type = none)
    (hp : p.call node embedding_type = some injection) :
    apply_embeddings_plugins_traced (pre ++ p :: post) node embedding_type
      = (some injection, (pre ++ [p]).map EmbeddingsPlugin.plugin_name)
    ∧ apply_embeddings_plugins (pre ++ p :: post) node embedding_type
      = some injection := by
  induction pre with
  | nil =>
    simp [apply_embeddings_plugins_traced, apply_embeddings_plugins, hp]
  | cons q rest ih =>
    have hq : q.call node embedding_type = none := hpre q (by simp)
    have hrest := ih (fun r hr => hpre r (by simp [hr]))
    simp [apply_embeddings_plugins_traced, apply_embeddings_plugins, hq,
      hrest.1, hrest.2]

/-- C7 witness: among three registered plugins for "code", the second is
the first to match; the third (which would also match) is never invoked. -/
theorem C7_embeddings_first_match_witness :
    apply_embeddings_plugins_traced
        [exPluginMiss, exPluginHit, exPluginShadowed] exEmbeddingNode "code"
      = (some exInjection, ["miss", "hit"])
    ∧ apply_embeddings_plugins
        [exPluginMiss, exPluginHit, exPluginShadowed] exEmbeddingNode "code"
      = some exInjection := by
  have h := C7_embeddings_first_match [exPluginMiss] exPluginHit
    [exPluginShadowed] exEmbeddingNode "code" exInjection
    (by intro q hq; simp at hq; subst hq; rfl)
    (by rfl)
  simpa using h

/-- C4 counterexample: the `clc-metadata` child elements rendered from a
node's metadata mapping keep the mapping's insertion order; with insertion
order `["b", "a"]` the rendered key order is not lexicographic. -/
theorem C4_counterexample :
    ClcMetadataTemplate.from_ast_node exMetadata
      = [Tpl.clcMetadata "str" "b" "x", Tpl.clcMetadata "str" "a" "y"]
    ∧ (ClcMetadataTemplate.from_ast_node exMetadata).map Tpl.metadataKey
      = ["b", "a"]
    ∧ ¬ pyStrLeRel "b" "a" :=
  ⟨rfl, rfl, by decide⟩

/-- C4 amended: the magic (spec-reserved) metadata rendered as attributes
is sorted lexicographically by field name and excludes the
`is_doc_metadata` control-flow key; the plain metadata entries rendered as
one child element per key keep the mapping's insertion order. -/
theorem C4_amended_metadata_rendering
    (magic : List (String × Option MagicValue))
    (spec_metadatas : List (String × String))
    (metadata : List (String × DatatypedValue))
    (h : collect_spec_metadatas magic = some spec_metadatas) :
    List.Sorted pyStrLeRel (spec_metadata_sorted_keys spec_metadatas)
    ∧ "is_doc_metadata" ∉ spec_metadatas.map Prod.fst
    ∧ "is_doc_metadata" ∉ spec_metadata_sorted_keys spec_metadatas
    ∧ (ClcMetadataTemplate.from_ast_node metadata).map Tpl.metadataKey
      = metadata.map Prod.fst := by
  have hnd := collect_spec_metadatas_no_doc_meta magic spec_metadatas h
  haveI : IsTotal String pyStrLeRel := ⟨pyStrLeRel_total⟩
  haveI : IsTrans String pyStrLeRel := ⟨pyStrLeRel_trans⟩
  refine ⟨?_, hnd, ?_, metadata_template_keys metadata⟩
  · exact List.sorted_insertionSort pyStrLeRel _
  · intro hx
    exact hnd ((List.perm_insertionSort pyStrLeRel _).mem_iff.mp hx)

/-- C4 witness: a concrete magic-field listing whose `is_doc_metadata`
entry is skipped and whose remaining keys come out sorted, next to the
insertion-ordered plain metadata of `exMetadata`. -/
theorem C4_amended_metadata_rendering_witness :
    collect_spec_metadatas exMagic
      = some [("formatting", "strong"), ("anchor", "z")]
    ∧ List.Sorted pyStrLeRel
        (spec_metadata_sorted_keys [("formatting", "strong"), ("anchor", "z")])
    ∧ "is_doc_metadata"
        ∉ spec_metadata_sorted_keys [("formatting", "strong"), ("anchor", "z")]
    ∧ (ClcMetadataTemplate.from_ast_node exMetadata).map Tpl.metadataKey
      = exMetadata.map Prod.fst := by
  have h : collect_spec_metadatas exMagic
      = some [("formatting", "strong"), ("anchor", "z")] := rfl
  have h2 := C4_amended_metadata_rendering exMagic
    [("formatting", "strong"), ("anchor", "z")] exMetadata h
  exact ⟨h, h2.1, h2.2.2.1, h2.2.2.2⟩

end Cleancopywriter
